import Mathlib

/-!
Shallow embedding of the flight-price-checker repository
(`flight_checker.py` and `app.py`) and proofs of the spec's claims.

Conventions of the embedding:
* Python dicts written to `status.json` / `price_history.json` become the
  `Store` structure; `save_status` / `save_history` / `load_status` /
  `load_history` are explicit pure state transformers.
* The network call of `search_flights` is abstracted to an input of type
  `FetchRes` (an HTTP error, an arbitrary exception, or an offer list),
  since the core logic only branches on the fetch outcome.
* Real time stamps become a `Nat` parameter `ts`.
* Python floats for prices become `Rat`; the prices and threshold the
  claims mention (7000, 8000, 9000) are exact in either representation.
* The side effects "desktop notification attempted" and "email
  notification attempted" become booleans in the result record.
-/

/-- `PRICE_LIMIT = 8000` SEK, the alert threshold (flight_checker.py). -/
def PRICE_LIMIT : Rat := 8000

/-- `CHECK_EVERY_HOURS = 6` (flight_checker.py). -/
def CHECK_EVERY_HOURS : Nat := 6

/-- A simplified offer as produced by `search_flights`:
`{"price": price, "airlines": airlines}`. -/
structure Offer where
  price : Rat
  airlines : List String
deriving DecidableEq

/-- A history entry `{timestamp, price_sek, airlines}` appended by
`save_history` inside `run_check`. -/
structure HistEntry where
  timestamp : Nat
  price_sek : Rat
  airlines : String
deriving DecidableEq

/-- The success-result dict built by `run_check`
(`timestamp, price_sek, airlines, is_deal, all_offers, error: None`);
the always-`None` error field is encoded by the `StatusRec.resultRec`
constructor below. -/
structure ResultRec where
  timestamp : Nat
  price_sek : Rat
  airlines : String
  is_deal : Bool
  all_offers : List Offer
deriving DecidableEq

/-- What `status.json` can hold: either an error dict
`{"error": err, "timestamp": ts}` (non-null error field) or a full
success record (null error field). -/
inductive StatusRec where
  | errorRec (error : String) (timestamp : Nat)
  | resultRec (r : ResultRec)
deriving DecidableEq

/-- The Result Store: current status (`status.json`, absent before the
first save) and the append-only history list (`price_history.json`). -/
structure Store where
  status : Option StatusRec
  history : List HistEntry
deriving DecidableEq

/-- `load_status`: returns the saved status, `{}`/none when absent. -/
def load_status (st : Store) : Option StatusRec := st.status

/-- `save_status`: overwrites `status.json`. -/
def save_status (st : Store) (s : StatusRec) : Store :=
  { st with status := some s }

/-- `save_history`: appends one entry to `price_history.json`. -/
def save_history (st : Store) (e : HistEntry) : Store :=
  { st with history := st.history ++ [e] }

/-- `load_history`: returns the full history list. -/
def load_history (st : Store) : List HistEntry := st.history

/-- Outcome of the `search_flights` call as observed by `run_check`:
an HTTP error raised via `raise_for_status`, any other exception, or a
successfully parsed (sorted) offer list. -/
inductive FetchRes where
  | httpError (code : Nat) (body : String)
  | exc (msg : String)
  | ok (offers : List Offer)
deriving DecidableEq

/-- Python truthiness test used by `if not client_id or not client_secret`:
an unset env variable is `None`, a set-but-empty one is `""`; both are
falsy. -/
def pyFalsyStr : Option String → Bool
  | none => true
  | some s => s.isEmpty

/-- Everything `run_check` produces: the updated store, whether the
fetcher (`search_flights`) was invoked, whether `desktop_notify` /
`email_notify` were invoked, and the return value (`None` encoded as
`none`). -/
structure RunCheckRes where
  store : Store
  fetched : Bool
  desktop_notified : Bool
  email_notified : Bool
  ret : Option ResultRec
deriving DecidableEq

/-- `run_check` (flight_checker.py, lines 226-310), with the fetch
outcome and the current time as explicit inputs. -/
def run_check (client_id client_secret : Option String) (fetch : FetchRes)
    (ts : Nat) (st : Store) : RunCheckRes :=
  if pyFalsyStr client_id || pyFalsyStr client_secret then
    ⟨st, false, false, false, none⟩
  else
    match fetch with
    | .httpError code _ =>
        ⟨save_status st (.errorRec ("API error: " ++ toString code) ts),
          true, false, false, none⟩
    | .exc msg =>
        ⟨save_status st (.errorRec msg ts), true, false, false, none⟩
    | .ok [] =>
        ⟨save_status st (.errorRec "No direct flights found" ts),
          true, false, false, none⟩
    | .ok (cheapest :: rest) =>
        let offers := cheapest :: rest
        let price := cheapest.price
        let airlines := String.intercalate ", " cheapest.airlines
        let deal : Bool := decide (price < PRICE_LIMIT)
        let st1 := save_history st ⟨ts, price, airlines⟩
        let result : ResultRec := ⟨ts, price, airlines, deal, offers.take 5⟩
        let st2 := save_status st1 (.resultRec result)
        ⟨st2, true, deal, deal, some result⟩

/-- `put_nowait` on a `queue.Queue(maxsize=20)`: succeeds (appending the
payload) exactly when the queue holds fewer than 20 items, otherwise
raises `queue.Full` (encoded as `none`); it never blocks. -/
def put_nowait (q : List String) (p : String) : Option (List String) :=
  if q.length < 20 then some (q ++ [p]) else none

/-- `_broadcast` (app.py, lines 49-59): one pass over the subscriber
list, attempting a non-blocking enqueue on each queue; queues whose
enqueue raised `Full` are collected as `dead` and removed from the list
in the same pass.  The mutate-then-remove loop over distinct queue
objects is exactly a `filterMap`: surviving queues keep their list
order and receive the payload, full ones disappear. -/
def _broadcast (p : String) (ls : List (List String)) : List (List String) :=
  ls.filterMap (fun q => put_nowait q p)

/-! ## App layer (`app.py`): shared run state and the check executor -/

/-- Event payloads sent through `_broadcast` by `_do_check`:
`"checking"` events carry `{"checking": bool}`, `"result"` events carry
the fields extracted from the `run_check` result. -/
inductive Ev where
  | checkingEv (b : Bool)
  | resultEv (r : ResultRec)
deriving DecidableEq

/-- The outcome of the `fc.run_check()` call as seen from `_do_check`:
it either returns a value (`some result` on success, `none` on an
internally handled failure) or raises an unexpected exception. -/
inductive FetchOutcome where
  | ret (r : Option ResultRec)
  | raise
deriving DecidableEq

/-- The in-memory `_state` fields `_do_check` reads and writes
(`checking`, `check_count`); the subscriber queues are modelled
separately by `_broadcast`, and events are recorded in an emission
log. -/
structure AppState where
  checking : Bool
  check_count : Nat
deriving DecidableEq

/-- Result of one `_do_check` invocation: the final state, the ordered
list of events it broadcast, and whether it reached the call to
`fc.run_check()` (false exactly for single-flight-rejected calls). -/
structure DoCheckRes where
  state : AppState
  events : List Ev
  fetched : Bool
deriving DecidableEq

/-- `_do_check` (app.py, lines 64-86) for one invocation, with the
outcome of the `fc.run_check()` call as an explicit input.  The gate
runs under the lock; on passing it, a `checking: true` event is
broadcast, `run_check` is called, `check_count` is incremented whenever
that call returns (the increment is skipped only when it raises), a
`result` event is broadcast when the return value is truthy, and the
`finally` block resets `checking` and broadcasts `checking: false` in
every non-rejected path. -/
def _do_check (s : AppState) (o : FetchOutcome) : DoCheckRes :=
  if s.checking then ⟨s, [], false⟩
  else
    let s1 : AppState := { s with checking := true }
    match o with
    | .ret r =>
        let s2 : AppState := { s1 with check_count := s1.check_count + 1 }
        let resultEvents : List Ev :=
          match r with
          | some res => [Ev.resultEv res]
          | none => []
        ⟨{ s2 with checking := false },
          Ev.checkingEv true :: resultEvents ++ [Ev.checkingEv false], true⟩
    | .raise =>
        ⟨{ s1 with checking := false },
          [Ev.checkingEv true, Ev.checkingEv false], true⟩

/-- `_do_check` composed with the real `run_check`: when the gate
passes, `fc.run_check()` is executed (updating the store) and its return
value drives the rest of `_do_check`. -/
def _do_check_rc (s : AppState) (st : Store) (cid cs : Option String)
    (fetch : FetchRes) (ts : Nat) : DoCheckRes × Store :=
  if s.checking then (⟨s, [], false⟩, st)
  else
    let rc := run_check cid cs fetch ts st
    (_do_check s (FetchOutcome.ret rc.ret), rc.store)

/-- The JSON body returned by the `/api/check` route. -/
structure ApiResp where
  status : String
  result : Option StatusRec
deriving DecidableEq

/-- Result of one `/api/check` request: response body, final in-memory
state, final store, and whether `_do_check()` was executed by this
request (false in the `already_running` branch, so the fetcher cannot be
invoked a second time). -/
structure ApiCheckRes where
  resp : ApiResp
  state : AppState
  store : Store
  do_check_ran : Bool
deriving DecidableEq

/-- `api_check` (app.py, lines 149-160): under the lock, if a check is
already running return `already_running` with the last saved status;
otherwise run `_do_check()` synchronously and return `done` with the
freshly saved status. -/
def api_check (s : AppState) (st : Store) (cid cs : Option String)
    (fetch : FetchRes) (ts : Nat) : ApiCheckRes :=
  if s.checking then
    ⟨⟨"already_running", load_status st⟩, s, st, false⟩
  else
    let r := _do_check_rc s st cid cs fetch ts
    ⟨⟨"done", load_status r.2⟩, r.1.state, r.2, r.1.fetched⟩

/-! ## Scheduler models (`app.py _scheduler_loop` / `flight_checker.main`)

Time is measured in seconds from process start.  The `schedule` library
semantics: `schedule.every(H).hours.do(job)` arms the job with
`next_run = now + H hours`; each `run_pending()` runs the job when
`next_run <= now` and then re-arms it one period later.  Both loops poll
`run_pending()` every 30 seconds. -/

/-- The times (seconds since start) at which the polled `schedule` job
fires during the first `k` poll iterations, starting at time `t` with
the job armed for time `nr`. -/
def schedCheckTimes (period : Nat) : Nat → Nat → Nat → List Nat
  | 0, _t, _nr => []
  | Nat.succ k, t, nr =>
      if nr ≤ t then t :: schedCheckTimes period k (t + 30) (t + period)
      else schedCheckTimes period k (t + 30) nr

/-- Observable behaviour of `_scheduler_loop`: the `next_check_at`
value it stores before entering the loop, and the check times of the
first `k` poll iterations. -/
structure SchedulerLoopModel where
  next_check_at : Nat
  checkTimes : List Nat

/-- `_scheduler_loop` (app.py, lines 89-100): sets
`next_check_at = now + interval` under the lock, arms the periodic job
(first run one full period after startup — deliberately no immediate
run), then polls forever; modelled over the first `k` iterations. -/
def _scheduler_loop (period k : Nat) : SchedulerLoopModel :=
  { next_check_at := period
    checkTimes := schedCheckTimes period k 0 period }

/-- `main` (flight_checker.py, lines 315-337): prints the banner, calls
`run_check()` immediately, then arms the periodic job and polls; the
check times over the first `k` poll iterations therefore start with an
immediate check at time 0. -/
def fc_main_checkTimes (period k : Nat) : List Nat :=
  0 :: schedCheckTimes period k 0 period

/-! ## Interleaving model of concurrent `_do_check` invocations

`_do_check` consists of a sequence of atomic sections: each
`with _state_lock:` block and each `_broadcast` call (which locks
internally) is one atomic action, and the unlocked `fc.run_check()`
call touches no shared in-memory state.  A system is a shared state
plus any number of threads, each running `_do_check` with a
predetermined fetch outcome; `SysStep` interleaves their atomic
actions. -/

/-- Shared in-memory state plus the global emission-ordered log of
broadcast events. -/
structure Shared where
  checking : Bool
  check_count : Nat
  events : List Ev
deriving DecidableEq

/-- Program counter of one `_do_check` invocation, naming the next
atomic action. -/
inductive Phase where
  | start
  | locked
  | fetching
  | afterFetch (o : FetchOutcome)
  | counted (r : Option ResultRec)
  | finalizing
  | stopping
  | done
  | rejected
deriving DecidableEq

/-- One thread: its program counter and the predetermined outcome its
`fc.run_check()` call will have. -/
structure Thread where
  phase : Phase
  outcome : FetchOutcome
deriving DecidableEq

/-- Atomic actions of one `_do_check` invocation with fetch outcome `o`:
the gate (reject, or acquire setting `checking := true`), the
`checking: true` broadcast, the fetch returning or raising, the
`check_count` increment (only on return), the optional `result`
broadcast, the finally-block reset of `checking`, and the
`checking: false` broadcast. -/
inductive TStep : FetchOutcome → Shared → Phase → Shared → Phase → Prop
  | reject (o : FetchOutcome) (sh : Shared) :
      sh.checking = true → TStep o sh .start sh .rejected
  | acquire (o : FetchOutcome) (sh : Shared) :
      sh.checking = false →
      TStep o sh .start { sh with checking := true } .locked
  | started (o : FetchOutcome) (sh : Shared) :
      TStep o sh .locked
        { sh with events := sh.events ++ [Ev.checkingEv true] } .fetching
  | fetchEnd (o : FetchOutcome) (sh : Shared) :
      TStep o sh .fetching sh (.afterFetch o)
  | countInc (o : FetchOutcome) (sh : Shared) (r : Option ResultRec) :
      TStep o sh (.afterFetch (.ret r))
        { sh with check_count := sh.check_count + 1 } (.counted r)
  | raised (o : FetchOutcome) (sh : Shared) :
      TStep o sh (.afterFetch .raise) sh .finalizing
  | resultBcast (o : FetchOutcome) (sh : Shared) (r : ResultRec) :
      TStep o sh (.counted (some r))
        { sh with events := sh.events ++ [Ev.resultEv r] } .finalizing
  | noResult (o : FetchOutcome) (sh : Shared) :
      TStep o sh (.counted none) sh .finalizing
  | release (o : FetchOutcome) (sh : Shared) :
      TStep o sh .finalizing { sh with checking := false } .stopping
  | stopBcast (o : FetchOutcome) (sh : Shared) :
      TStep o sh .stopping
        { sh with events := sh.events ++ [Ev.checkingEv false] } .done

/-- A system: shared state and the thread pool. -/
structure Sys where
  shared : Shared
  threads : List Thread

/-- One interleaving step: some thread performs its next atomic
action. -/
def SysStep (s s' : Sys) : Prop :=
  ∃ i : Fin s.threads.length, ∃ ph' : Phase,
    TStep (s.threads.get i).outcome s.shared (s.threads.get i).phase
      s'.shared ph' ∧
    s'.threads = s.threads.set i { s.threads.get i with phase := ph' }

/-- Reachability from a system state by interleaved atomic actions. -/
def Reach : Sys → Sys → Prop := Relation.ReflTransGen SysStep

/-- Initial system: `checking = False`, `check_count = 0`, no events,
every thread about to enter `_do_check`. -/
def initSys (outs : List FetchOutcome) : Sys :=
  { shared := { checking := false, check_count := 0, events := [] }
    threads := outs.map (fun o => { phase := .start, outcome := o }) }

/-- Phases in the critical section: those a thread is in strictly
between the gate setting `checking := true` and the finally-block
resetting it. -/
def activeP : Phase → Bool
  | .locked => true
  | .fetching => true
  | .afterFetch _ => true
  | .counted _ => true
  | .finalizing => true
  | _ => false

/-- Number of threads in the critical section. -/
def activeCount (s : Sys) : Nat :=
  s.threads.countP (fun t => activeP t.phase)

/-- The single-flight invariant: `checking` is true exactly while one
thread is in the critical section, and false while none is. -/
def SysInv (s : Sys) : Prop :=
  activeCount s = if s.shared.checking then 1 else 0

/-! ### Single-flight invariant proof -/

/-- Replacing one element of a list changes `countP` by the difference
of the predicate at the old and new element. -/
theorem countP_set_eq {α : Type} (p : α → Bool) (l : List α) (i : Nat)
    (x : α) (h : i < l.length) :
    (l.set i x).countP p + (if p (l.get ⟨i, h⟩) then 1 else 0)
      = l.countP p + (if p x then 1 else 0) := by
  induction l generalizing i with
  | nil => simp at h
  | cons a tl ih =>
    cases i with
    | zero =>
        simp only [List.set, List.countP_cons, List.get]
        split_ifs <;> omega
    | succ j =>
        have hj : j < tl.length := by simpa using h
        have hstep := ih j hj
        simp only [List.set, List.countP_cons, List.get]
        split_ifs at hstep ⊢ <;> omega

/-- Case analysis of one atomic action: it either leaves both the
critical-section membership of the acting thread and `checking`
unchanged, or it is the gate acquisition (enters the section, turns
`checking` on, and requires it off), or it is the finally-block release
(leaves the section and turns `checking` off). -/
theorem tstep_active_checking {o : FetchOutcome} {sh : Shared} {ph : Phase}
    {sh' : Shared} {ph' : Phase} (h : TStep o sh ph sh' ph') :
    (activeP ph' = activeP ph ∧ sh'.checking = sh.checking)
    ∨ (activeP ph = false ∧ activeP ph' = true ∧ sh.checking = false
        ∧ sh'.checking = true)
    ∨ (activeP ph = true ∧ activeP ph' = false ∧ sh'.checking = false) := by
  cases h <;> (simp [activeP]; try assumption)

/-- Every interleaving step preserves the single-flight invariant. -/
theorem sysStep_preserves_inv {s s' : Sys} (hinv : SysInv s)
    (hstep : SysStep s s') : SysInv s' := by
  obtain ⟨i, ph', ht, hthreads⟩ := hstep
  have hkey := countP_set_eq (fun t => activeP t.phase) s.threads i
      { s.threads.get i with phase := ph' } i.isLt
  have hpos : activeP (s.threads.get i).phase = true →
      0 < s.threads.countP (fun t => activeP t.phase) := fun hA =>
    List.countP_pos_iff.mpr ⟨s.threads.get i, List.get_mem _ _ _, hA⟩
  have hac := tstep_active_checking ht
  simp only [SysInv, activeCount] at hinv ⊢
  rw [hthreads]
  rcases hac with ⟨h1, h2⟩ | ⟨h1, h2, h3, h4⟩ | ⟨h1, h2, h3⟩ <;>
    cases hco : s.shared.checking <;>
    simp_all

/-- The single-flight invariant holds in every state reachable from any
initial thread pool. -/
theorem reach_inv (outs : List FetchOutcome) (s : Sys)
    (h : Reach (initSys outs) s) : SysInv s := by
  induction h with
  | refl =>
      simp only [SysInv, activeCount, initSys, List.countP_map]
      simp [Function.comp, activeP]
  | tail _ hstep ih => exact sysStep_preserves_inv ih hstep

/-! ## Claims -/

/-- Claim C1: for every `_do_check` invocation that passes the
single-flight gate, whether `fc.run_check()` returns a result, returns
`None`, or raises, the finally-phase runs: `checking` is reset to false
and the last broadcast event is `checking-stopped`
(`checking: false`). -/
theorem C1_finally_resets_checking (s : AppState) (o : FetchOutcome)
    (h : s.checking = false) :
    (_do_check s o).state.checking = false ∧
    (_do_check s o).events.getLast? = some (Ev.checkingEv false) := by
  cases o with
  | ret r => cases r <;> simp [_do_check, h]
  | raise => simp [_do_check, h]

/-- Witness for C1 at a fresh state with a raising fetch. -/
theorem C1_witness :
    (_do_check ⟨false, 0⟩ FetchOutcome.raise).state.checking = false ∧
    (_do_check ⟨false, 0⟩ FetchOutcome.raise).events.getLast?
      = some (Ev.checkingEv false) :=
  C1_finally_resets_checking ⟨false, 0⟩ FetchOutcome.raise rfl

/-- Claim C3: for every non-rejected `_do_check` invocation the event
list is `checking-started`, then an optional `result` event, then
`checking-stopped`; the `result` event appears exactly when
`run_check` returned a non-null result. -/
theorem C3_event_ordering (s : AppState) (o : FetchOutcome)
    (h : s.checking = false) :
    ∃ mid, (_do_check s o).events
        = Ev.checkingEv true :: mid ++ [Ev.checkingEv false] ∧
      ((∃ r, o = FetchOutcome.ret (some r) ∧ mid = [Ev.resultEv r]) ∨
        (mid = [] ∧ ∀ r, o ≠ FetchOutcome.ret (some r))) := by
  cases o with
  | ret r =>
      cases r with
      | none =>
          exact ⟨[], by simp [_do_check, h], Or.inr ⟨rfl, by simp⟩⟩
      | some res =>
          exact ⟨[Ev.resultEv res], by simp [_do_check, h],
            Or.inl ⟨res, rfl, rfl⟩⟩
  | raise => exact ⟨[], by simp [_do_check, h], Or.inr ⟨rfl, by simp⟩⟩

/-- Witness for C3 at a fresh state with a failing fetch. -/
theorem C3_witness :
    ∃ mid, (_do_check ⟨false, 0⟩ (FetchOutcome.ret none)).events
        = Ev.checkingEv true :: mid ++ [Ev.checkingEv false] ∧
      ((∃ r, FetchOutcome.ret none = FetchOutcome.ret (some r)
          ∧ mid = [Ev.resultEv r]) ∨
        (mid = [] ∧ ∀ r, FetchOutcome.ret none ≠ FetchOutcome.ret (some r))) :=
  C3_event_ordering ⟨false, 0⟩ (FetchOutcome.ret none) rfl

/-- Counterexample to claim C4 as stated: from a fresh state, a check
whose fetch fails (`run_check` returns `None`) leaves `check_count`
changed — app.py increments it unconditionally once `run_check`
returns. -/
theorem C4_counterexample :
    ¬ ((_do_check ⟨false, 0⟩ (FetchOutcome.ret none)).state.check_count
        = (⟨false, 0⟩ : AppState).check_count) := by
  decide

/-- Claim C4 (amended): `_do_check` increments `check_count` under the
lock whenever `run_check` returns — on success and on reported failure
alike — and leaves it unchanged only when `run_check` raises. -/
theorem C4_count_increment (s : AppState) (r : Option ResultRec)
    (h : s.checking = false) :
    (_do_check s (FetchOutcome.ret r)).state.check_count = s.check_count + 1 ∧
    (_do_check s FetchOutcome.raise).state.check_count = s.check_count := by
  constructor
  · cases r <;> simp [_do_check, h]
  · simp [_do_check, h]

/-- Witness for the amended C4 at a fresh state. -/
theorem C4_witness :
    (_do_check ⟨false, 0⟩ (FetchOutcome.ret none)).state.check_count
        = (⟨false, 0⟩ : AppState).check_count + 1 ∧
    (_do_check ⟨false, 0⟩ FetchOutcome.raise).state.check_count
        = (⟨false, 0⟩ : AppState).check_count :=
  C4_count_increment ⟨false, 0⟩ none rfl

/-- Claim C2: under arbitrary interleaving of concurrent `_do_check`
invocations, (a) at most one thread is ever performing the fetch,
(b) a rejected invocation ends at the gate with the shared state — and
hence the event log — completely unchanged and without reaching the
fetcher, and (c) the only atomic action that turns `checking` on is the
gate acquisition, which requires `checking` to have been false. -/
theorem C2_single_flight :
    (∀ (outs : List FetchOutcome) (s : Sys), Reach (initSys outs) s →
        s.threads.countP (fun t => decide (t.phase = Phase.fetching)) ≤ 1) ∧
    (∀ o sh ph sh', TStep o sh ph sh' Phase.rejected →
        sh' = sh ∧ ph = Phase.start) ∧
    (∀ o sh ph sh' ph', TStep o sh ph sh' ph' →
        sh.checking = false → sh'.checking = true →
        ph = Phase.start ∧ ph' = Phase.locked) := by
  refine ⟨?_, ?_, ?_⟩
  · intro outs s hreach
    have hinv := reach_inv outs s hreach
    have hmono : s.threads.countP (fun t => decide (t.phase = Phase.fetching))
        ≤ s.threads.countP (fun t => activeP t.phase) :=
      List.countP_mono_left (fun t _ ht => by
        have hph : t.phase = Phase.fetching := by simpa using ht
        simp [activeP, hph])
    simp only [SysInv, activeCount] at hinv
    refine le_trans hmono ?_
    rw [hinv]
    cases s.shared.checking <;> simp
  · intro o sh ph sh' hstep
    cases hstep
    exact ⟨rfl, rfl⟩
  · intro o sh ph sh' ph' hstep hfalse htrue
    cases hstep <;> simp_all

/-- Witness for C2: the initial system trivially satisfies the bound,
a concrete gate rejection leaves a concrete shared state unchanged, and
a concrete acquisition goes from `start` to `locked`. -/
theorem C2_witness :
    (initSys []).threads.countP (fun t => decide (t.phase = Phase.fetching)) ≤ 1 ∧
    ((⟨true, 0, []⟩ : Shared) = ⟨true, 0, []⟩ ∧ Phase.start = Phase.start) ∧
    (Phase.start = Phase.start ∧ Phase.locked = Phase.locked) :=
  ⟨C2_single_flight.1 [] (initSys []) Relation.ReflTransGen.refl,
   C2_single_flight.2.1 FetchOutcome.raise ⟨true, 0, []⟩ Phase.start
     ⟨true, 0, []⟩ (TStep.reject _ _ rfl),
   C2_single_flight.2.2 FetchOutcome.raise ⟨false, 0, []⟩ Phase.start
     ⟨true, 0, []⟩ Phase.locked (TStep.acquire _ _ rfl) rfl rfl⟩

/-- Claim C5: one `_broadcast` pass keeps exactly the subscribers whose
queue has spare capacity (below 20), in their original list order, with
the payload appended to each; every full queue is dropped in the same
pass, independently of the others, and no enqueue ever blocks (the
model is the total function `put_nowait`). -/
theorem C5_broadcast_shed (p : String) (ls : List (List String)) :
    _broadcast p ls
      = (ls.filter (fun q => decide (q.length < 20))).map (fun q => q ++ [p]) := by
  induction ls with
  | nil => rfl
  | cons q tl ih =>
      simp only [_broadcast, List.filterMap_cons, put_nowait,
        List.filter_cons] at ih ⊢
      by_cases h : q.length < 20
      · simp [h, ih]
      · simp [h, ih]

/-- Claim C6: with credentials present, every fetch failure (HTTP error
or any other exception) makes `run_check` save a status record with a
non-null error field and the current timestamp, attempt no desktop or
email notification, append nothing to history, and return `None`. -/
theorem C6_failure_persisted (cid cs : Option String) (fetch : FetchRes)
    (ts : Nat) (st : Store)
    (hcid : pyFalsyStr cid = false) (hcs : pyFalsyStr cs = false)
    (hfail : (∃ c b, fetch = FetchRes.httpError c b)
      ∨ ∃ m, fetch = FetchRes.exc m) :
    (∃ e, (run_check cid cs fetch ts st).store.status
        = some (StatusRec.errorRec e ts)) ∧
    (run_check cid cs fetch ts st).store.history = st.history ∧
    (run_check cid cs fetch ts st).desktop_notified = false ∧
    (run_check cid cs fetch ts st).email_notified = false ∧
    (run_check cid cs fetch ts st).ret = none := by
  rcases hfail with ⟨c, b, rfl⟩ | ⟨m, rfl⟩ <;>
    simp [run_check, hcid, hcs, save_status]

/-- Witness for C6: a concrete exception with concrete credentials. -/
theorem C6_witness :
    (∃ e, (run_check (some "id") (some "secret") (FetchRes.exc "boom")
        5 ⟨none, []⟩).store.status = some (StatusRec.errorRec e 5)) ∧
    (run_check (some "id") (some "secret") (FetchRes.exc "boom")
        5 ⟨none, []⟩).store.history = (⟨none, []⟩ : Store).history ∧
    (run_check (some "id") (some "secret") (FetchRes.exc "boom")
        5 ⟨none, []⟩).desktop_notified = false ∧
    (run_check (some "id") (some "secret") (FetchRes.exc "boom")
        5 ⟨none, []⟩).email_notified = false ∧
    (run_check (some "id") (some "secret") (FetchRes.exc "boom")
        5 ⟨none, []⟩).ret = none :=
  C6_failure_persisted (some "id") (some "secret") (FetchRes.exc "boom")
    5 ⟨none, []⟩ rfl rfl (Or.inr ⟨"boom", rfl⟩)

/-- Claim C7: with credentials present and a non-empty sorted offer
list, `run_check` returns a result whose `is_deal` flag is "the
cheapest price is strictly below `PRICE_LIMIT`" (the head of the sorted
list being cheapest), persists that result as the status, and invokes
the desktop and email notifiers exactly when the flag is true. -/
theorem C7_deal_threshold (cid cs : Option String) (ts : Nat) (st : Store)
    (cheapest : Offer) (rest : List Offer)
    (hcid : pyFalsyStr cid = false) (hcs : pyFalsyStr cs = false)
    (hsorted : (cheapest :: rest).Pairwise (fun a b => a.price ≤ b.price)) :
    ∃ res,
      (run_check cid cs (FetchRes.ok (cheapest :: rest)) ts st).ret
        = some res ∧
      res.is_deal = decide (cheapest.price < PRICE_LIMIT) ∧
      res.price_sek = cheapest.price ∧
      (∀ o ∈ cheapest :: rest, cheapest.price ≤ o.price) ∧
      (run_check cid cs (FetchRes.ok (cheapest :: rest)) ts st).store.status
        = some (StatusRec.resultRec res) ∧
      (run_check cid cs (FetchRes.ok (cheapest :: rest)) ts st).desktop_notified
        = res.is_deal ∧
      (run_check cid cs (FetchRes.ok (cheapest :: rest)) ts st).email_notified
        = res.is_deal := by
  refine ⟨⟨ts, cheapest.price, String.intercalate ", " cheapest.airlines,
      decide (cheapest.price < PRICE_LIMIT), (cheapest :: rest).take 5⟩,
    ?_, rfl, rfl, ?_, ?_, ?_, ?_⟩
  · simp [run_check, hcid, hcs]
  · intro o ho
    rcases List.mem_cons.mp ho with rfl | ho'
    · exact le_refl _
    · exact (List.pairwise_cons.mp hsorted).1 o ho'
  · simp [run_check, hcid, hcs, save_status, save_history]
  · simp [run_check, hcid, hcs]
  · simp [run_check, hcid, hcs]

/-- Witness for C7: a single offer at 7000 SEK (below the 8000 limit,
deal and notification) and a single offer at 9000 SEK (above the limit,
no deal, no notification). -/
theorem C7_witness :
    (∃ res,
      (run_check (some "id") (some "sec")
          (FetchRes.ok [⟨7000, ["SK"]⟩]) 1 ⟨none, []⟩).ret = some res ∧
      res.is_deal = decide ((7000 : Rat) < PRICE_LIMIT) ∧
      res.price_sek = (7000 : Rat) ∧
      (∀ o ∈ [(⟨7000, ["SK"]⟩ : Offer)], (7000 : Rat) ≤ o.price) ∧
      (run_check (some "id") (some "sec")
          (FetchRes.ok [⟨7000, ["SK"]⟩]) 1 ⟨none, []⟩).store.status
        = some (StatusRec.resultRec res) ∧
      (run_check (some "id") (some "sec")
          (FetchRes.ok [⟨7000, ["SK"]⟩]) 1 ⟨none, []⟩).desktop_notified
        = res.is_deal ∧
      (run_check (some "id") (some "sec")
          (FetchRes.ok [⟨7000, ["SK"]⟩]) 1 ⟨none, []⟩).email_notified
        = res.is_deal) ∧
    (∃ res,
      (run_check (some "id") (some "sec")
          (FetchRes.ok [⟨9000, ["SK"]⟩]) 1 ⟨none, []⟩).ret = some res ∧
      res.is_deal = decide ((9000 : Rat) < PRICE_LIMIT) ∧
      res.price_sek = (9000 : Rat) ∧
      (∀ o ∈ [(⟨9000, ["SK"]⟩ : Offer)], (9000 : Rat) ≤ o.price) ∧
      (run_check (some "id") (some "sec")
          (FetchRes.ok [⟨9000, ["SK"]⟩]) 1 ⟨none, []⟩).store.status
        = some (StatusRec.resultRec res) ∧
      (run_check (some "id") (some "sec")
          (FetchRes.ok [⟨9000, ["SK"]⟩]) 1 ⟨none, []⟩).desktop_notified
        = res.is_deal ∧
      (run_check (some "id") (some "sec")
          (FetchRes.ok [⟨9000, ["SK"]⟩]) 1 ⟨none, []⟩).email_notified
        = res.is_deal) :=
  ⟨C7_deal_threshold (some "id") (some "sec") 1 ⟨none, []⟩
      ⟨7000, ["SK"]⟩ [] rfl rfl (by simp),
   C7_deal_threshold (some "id") (some "sec") 1 ⟨none, []⟩
      ⟨9000, ["SK"]⟩ [] rfl rfl (by simp)⟩

/-- Claim C8: a `/api/check` request arriving while `checking` is true
gets `{status: already_running, result: last saved status}` and runs
nothing (`_do_check` is not executed, so the fetcher cannot be invoked
again); a request arriving while `checking` is false runs one check
synchronously and gets `{status: done, result: freshly saved
status}`, ending with `checking` false. -/
theorem C8_api_check (s : AppState) (st : Store) (cid cs : Option String)
    (fetch : FetchRes) (ts : Nat) :
    (s.checking = true →
      api_check s st cid cs fetch ts
        = ⟨⟨"already_running", load_status st⟩, s, st, false⟩) ∧
    (s.checking = false →
      (api_check s st cid cs fetch ts).resp.status = "done" ∧
      (api_check s st cid cs fetch ts).resp.result
        = load_status (run_check cid cs fetch ts st).store ∧
      (api_check s st cid cs fetch ts).do_check_ran = true ∧
      (api_check s st cid cs fetch ts).state.checking = false) := by
  constructor
  · intro h
    simp [api_check, h]
  · intro h
    cases hr : (run_check cid cs fetch ts st).ret <;>
      simp [api_check, _do_check_rc, _do_check, h, hr]

/-- Witness for C8: one rejected request with `checking` true, one
executed request with `checking` false. -/
theorem C8_witness :
    (api_check ⟨true, 0⟩ ⟨none, []⟩ none none (FetchRes.ok []) 0
      = ⟨⟨"already_running", load_status ⟨none, []⟩⟩, ⟨true, 0⟩,
          ⟨none, []⟩, false⟩) ∧
    ((api_check ⟨false, 0⟩ ⟨none, []⟩ none none (FetchRes.ok []) 0).resp.status
        = "done" ∧
      (api_check ⟨false, 0⟩ ⟨none, []⟩ none none (FetchRes.ok []) 0).resp.result
        = load_status (run_check none none (FetchRes.ok []) 0 ⟨none, []⟩).store ∧
      (api_check ⟨false, 0⟩ ⟨none, []⟩ none none (FetchRes.ok []) 0).do_check_ran
        = true ∧
      (api_check ⟨false, 0⟩ ⟨none, []⟩ none none
          (FetchRes.ok []) 0).state.checking = false) :=
  ⟨(C8_api_check ⟨true, 0⟩ ⟨none, []⟩ none none (FetchRes.ok []) 0).1 rfl,
   (C8_api_check ⟨false, 0⟩ ⟨none, []⟩ none none (FetchRes.ok []) 0).2 rfl⟩

/-- Checks fired by the polled `schedule` job never come before the
armed time. -/
theorem schedCheckTimes_ge (period : Nat) :
    ∀ (k t nr x : Nat), x ∈ schedCheckTimes period k t nr → nr ≤ x := by
  intro k
  induction k with
  | zero =>
      intro t nr x hx
      simp [schedCheckTimes] at hx
  | succ k ih =>
      intro t nr x hx
      simp only [schedCheckTimes] at hx
      split_ifs at hx with h
      · rcases List.mem_cons.mp hx with rfl | hx'
        · exact h
        · have := ih (t + 30) (t + period) x hx'
          omega
      · exact ih (t + 30) nr x hx

/-- Counterexample to claim C9 as stated: the standalone persistent
entry point `flight_checker.main` calls `run_check()` immediately, so
its first check happens at time 0, before the configured 6-hour
interval has elapsed. -/
theorem C9_counterexample :
    fc_main_checkTimes (CHECK_EVERY_HOURS * 3600) 0 = [0] ∧
    ¬ (CHECK_EVERY_HOURS * 3600 ≤ 0) := by
  decide

/-- Claim C9 (amended): the web app's persistent-mode scheduler
(`_scheduler_loop`) never fires a check before one full interval has
elapsed since startup, and stores `next_check_at = startup + interval`
before entering the loop; the standalone CLI entry point
(`flight_checker.main`), by contrast, runs a check immediately at
time 0. -/
theorem C9_first_check_deferred (period k t : Nat)
    (ht : t ∈ (_scheduler_loop period k).checkTimes) :
    period ≤ t ∧ (_scheduler_loop period k).next_check_at = period ∧
    (fc_main_checkTimes period k).head? = some 0 :=
  ⟨schedCheckTimes_ge period k 0 period t ht, rfl, rfl⟩

/-- Witness for the amended C9: with a 60-second interval and three
30-second polls, the one check fires exactly at 60 seconds. -/
theorem C9_witness :
    (60 : Nat) ≤ 60 ∧ (_scheduler_loop 60 3).next_check_at = 60 ∧
    (fc_main_checkTimes 60 3).head? = some 0 :=
  C9_first_check_deferred 60 3 60 (by decide)

/-- Claim C10: when either Amadeus credential is unset or empty,
`run_check` returns `None` without invoking the fetcher, without saving
any status record, without touching history, and without notifying —
the store is exactly as before, so status polling sees nothing of this
failure. -/
theorem C10_missing_creds (cid cs : Option String) (fetch : FetchRes)
    (ts : Nat) (st : Store)
    (h : pyFalsyStr cid = true ∨ pyFalsyStr cs = true) :
    run_check cid cs fetch ts st = ⟨st, false, false, false, none⟩ := by
  rcases h with h | h <;> simp [run_check, h]

/-- Witness for C10: unset client id, empty client secret. -/
theorem C10_witness :
    run_check none (some "") (FetchRes.ok []) 0 ⟨none, []⟩
      = ⟨⟨none, []⟩, false, false, false, none⟩ :=
  C10_missing_creds none (some "") (FetchRes.ok []) 0 ⟨none, []⟩ (Or.inl rfl)
